import Mathlib

/-!
Shallow embedding of the autoe2e run-lifecycle orchestrator.

Covered source files:
* `src/autoe2e/docker_runner.py` — the health-check evaluator
  (`_check_http`, `_check_tcp`) and the readiness poller (`wait_for_health`);
* `src/autoe2e/reporter.py` — the JUnit report builder (`parse_junit_xml`,
  `generate_summary`);
* `src/autoe2e/ansible_runner.py` / `docker_runner.py` — the public
  operation surface of the two environment-control backends;
* `src/autoe2e/cli.py` — the full `run` workflow (up → test → collect →
  summary → down) with its failure and retention policy.

Modelling conventions: model time is a natural number of seconds; a polling
round is instantaneous and only the sleep between rounds advances time
(the per-check probe latency the spec documents as a trade-off is not
modelled, matching the spec's own testable properties).  Network traffic is
an oracle giving, per model time and check record, either a probe outcome
or a transport error.  Side effects of the workflow are recorded as an
event trace.
-/

/-- One health-check record as consumed by `DockerRunner.wait_for_health`:
a dict with a discriminator key `type` (embedded as `ctype`), an HTTP part
(`url`, `expected_status`) and a TCP part (`host`, `port`). -/
structure CheckRecord where
  ctype : String
  url : String
  expected_status : Nat
  host : String
  port : Nat
deriving DecidableEq

/-- Transport-level failures a probe can raise: request timeout, connection
refusal, DNS failure.  All are caught by the bare `except` clauses of
`_check_http` / `_check_tcp`. -/
inductive TransportError
  | timeout
  | refused
  | dnsFailure
deriving DecidableEq

/-- Network oracle: `http t c` is the outcome of `requests.get(c.url)` at
model time `t` (a status code, or a raised transport error); `tcp t c` is
the outcome of `connect_ex((c.host, c.port))` (an errno-style result code,
or a raised error such as a DNS failure). -/
structure Net where
  http : Nat → CheckRecord → Except TransportError Nat
  tcp : Nat → CheckRecord → Except TransportError Int

/-- Embedding of `DockerRunner._check_http`: the whole probe is wrapped in
`try`/`except Exception: return False`; on a response, pass iff the status
code equals `expected_status`. -/
def check_http (c : CheckRecord) (resp : Except TransportError Nat) : Bool :=
  match resp with
  | Except.ok status => status == c.expected_status
  | Except.error _ => false

/-- Embedding of `DockerRunner._check_tcp`: `connect_ex` yields a result
code (0 = connected); any raised error is swallowed and yields `false`. -/
def check_tcp (res : Except TransportError Int) : Bool :=
  match res with
  | Except.ok code => code == 0
  | Except.error _ => false

/-- A record is recognized by the poller's dispatch iff its `type` key is
`"http"` or `"tcp"`. -/
def recognized (c : CheckRecord) : Bool :=
  c.ctype = "http" || c.ctype = "tcp"

/-- The verdict one check contributes at time `t`: the dispatched probe for
recognized records; an unrecognized record imposes no condition. -/
def checkPasses (net : Net) (t : Nat) (c : CheckRecord) : Bool :=
  if c.ctype = "http" then check_http c (net.http t c)
  else if c.ctype = "tcp" then check_tcp (net.tcp t c)
  else true

/-- One polling round of `wait_for_health`, the body of the `for check in
health_checks` loop: walk the list in order; probe `"http"` and `"tcp"`
records; on the first failing probe set `all_passed = False` and `break`;
records of any other type are skipped.  Returns the round verdict together
with the list of records actually probed, in probe order. -/
def runRound (net : Net) (t : Nat) : List CheckRecord → Bool × List CheckRecord
  | [] => (true, [])
  | c :: rest =>
    if c.ctype = "http" then
      if check_http c (net.http t c) then
        let r := runRound net t rest
        (r.1, c :: r.2)
      else (false, [c])
    else if c.ctype = "tcp" then
      if check_tcp (net.tcp t c) then
        let r := runRound net t rest
        (r.1, c :: r.2)
      else (false, [c])
    else
      runRound net t rest

/-- Result of the poller: the returned boolean, the number of
`time.sleep(interval)` calls performed, and the final elapsed model time. -/
structure WaitResult where
  ready : Bool
  sleeps : Nat
  elapsed : Nat
deriving DecidableEq

/-- The `while time.time() - start_time < timeout` loop of
`wait_for_health`, with elapsed time `t` and sleep count `s` explicit.
Fuel only bounds the recursion; `wait_for_health` supplies enough of it
for every positive interval. -/
def waitLoop (net : Net) (checks : List CheckRecord) (tout ival : Nat) :
    Nat → Nat → Nat → WaitResult
  | 0, t, s => ⟨false, s, t⟩
  | Nat.succ fuel, t, s =>
    if t < tout then
      if (runRound net t checks).1 then ⟨true, s, t⟩
      else waitLoop net checks tout ival fuel (t + ival) (s + 1)
    else ⟨false, s, t⟩

/-- Embedding of `DockerRunner.wait_for_health(health_checks, timeout,
interval)`: run the polling loop from elapsed time 0. -/
def wait_for_health (net : Net) (checks : List CheckRecord)
    (tout ival : Nat) : WaitResult :=
  waitLoop net checks tout ival (tout + 1) 0 0

/-- One `<testcase>` element of the JUnit file: its `classname` and `name`
attributes and the `message` attribute of its `<failure>` / `<error>`
child when that child is present. -/
structure TestCase where
  classname : String
  name : String
  failureMsg : Option String
  errorMsg : Option String
deriving DecidableEq

/-- The parsed `<testsuite>` element: its `tests` / `failures` / `errors`
count attributes and its list of `<testcase>` children in document order. -/
structure JUnitSuite where
  tests : Nat
  failures : Nat
  errors : Nat
  cases : List TestCase
deriving DecidableEq

/-- One entry of the `failures` list of the parsed result. -/
structure FailureEntry where
  name : String
  reason : String
deriving DecidableEq

/-- The value `Reporter.parse_junit_xml` returns: counts plus the list of
failing/erroring cases. -/
structure TestResultSummary where
  total : Nat
  passed : Int
  failed : Nat
  failures : List FailureEntry
deriving DecidableEq

/-- Python string slicing `s[:200]`: the first 200 characters. -/
def truncate200 (s : String) : String :=
  ⟨s.data.take 200⟩

/-- The per-testcase body of `parse_junit_xml`'s loop: a case contributes an
entry iff it has a `<failure>` or `<error>` child; the chosen element is the
failure when present, else the error; `name` is `classname.name` and
`reason` is the element's message truncated to 200 characters. -/
def mkFailureEntry (tc : TestCase) : Option FailureEntry :=
  match tc.failureMsg, tc.errorMsg with
  | some m, _ => some ⟨tc.classname ++ "." ++ tc.name, truncate200 m⟩
  | none, some m => some ⟨tc.classname ++ "." ++ tc.name, truncate200 m⟩
  | none, none => none

/-- Embedding of `Reporter.parse_junit_xml`: `none` models an absent
`reports/junit.xml` and yields the documented empty default; otherwise
`failed = failures + errors`, `passed = tests - failures - errors`
(Python integer arithmetic, hence `Int`), and one entry per
failing/erroring testcase. -/
def parse_junit_xml (file : Option JUnitSuite) : TestResultSummary :=
  match file with
  | none => ⟨0, 0, 0, []⟩
  | some su =>
    ⟨su.tests,
     (su.tests : Int) - (su.failures : Int) - (su.errors : Int),
     su.failures + su.errors,
     su.cases.filterMap mkFailureEntry⟩

/-- The summary object `Reporter.generate_summary(exit_code)` produces, less
the `run_id` and `timestamp` fields (opaque to every claim):
`environment_bring_up_time_seconds` and `test_runtime_seconds` are `none`
when the corresponding phase marker was never set. -/
structure RunSummary where
  exit_code : Int
  env_time : Option Nat
  test_time : Option Nat
  total_tests : Nat
  passed : Int
  failed : Nat
  failures : List FailureEntry
deriving DecidableEq

/-- `generate_summary` at the moment `write_summary(exit_code)` runs:
`envReady` records whether `mark_env_ready` (and then `mark_test_end`) was
called, `file` is the junit file present in the artifacts directory. -/
def generate_summary (code : Int) (envReady : Bool)
    (envDur testDur : Nat) (file : Option JUnitSuite) : RunSummary :=
  let tr := parse_junit_xml file
  ⟨code,
   if envReady then some envDur else none,
   if envReady then some testDur else none,
   tr.total, tr.passed, tr.failed, tr.failures⟩

/-- The observable side-effecting calls of the `run` workflow, in order:
`ansible.up`, `runner.run`, `ansible.collect_artifacts`,
`reporter.write_summary` (with the written summary), `ansible.down`. -/
inductive Event
  | upCall
  | testCall
  | collectCall
  | summaryWrite (s : RunSummary)
  | downCall
deriving DecidableEq

/-- Inputs of one `run` invocation: the exit codes the external processes
return (`ansible.up`, `runner.run`, `ansible.down`), the retention flag
`--keep-on-fail`, the configured artifact policy (`"on_fail"` or
`"always"`), the phase durations, and the junit file the test phase leaves
in the artifacts directory (`none` when the engine wrote none). -/
structure RunInputs where
  upExit : Int
  testExit : Int
  downExit : Int
  keepOnFail : Bool
  collectMode : String
  envDur : Nat
  testDur : Nat
  junit : Option JUnitSuite
deriving DecidableEq

/-- Embedding of the `run` command of `cli.py`: returns the process exit
code and the trace of backend / reporter calls.  Mirrors the source
control flow: on nonzero `up` set `exit_code = 2`, collect artifacts,
write the summary (env never marked ready, junit absent), tear down only
when `--keep-on-fail` is unset, and exit.  Otherwise run the tests; on
nonzero test exit set `exit_code = 1` and clear `should_teardown` when
retention was requested; collect artifacts when `exit_code ≠ 0` or the
policy is `"always"`; write the summary; tear down when `should_teardown`
still holds.  The value `ansible.down` returns is never read. -/
def run (inp : RunInputs) : Int × List Event :=
  if inp.upExit ≠ 0 then
    let code : Int := 2
    let s := generate_summary code false inp.envDur inp.testDur none
    (code,
      [Event.upCall, Event.collectCall, Event.summaryWrite s] ++
        (if inp.keepOnFail then [] else [Event.downCall]))
  else
    let code : Int := if inp.testExit ≠ 0 then 1 else 0
    let s := generate_summary code true inp.envDur inp.testDur inp.junit
    (code,
      [Event.upCall, Event.testCall] ++
        (if code ≠ 0 ∨ inp.collectMode = "always"
          then [Event.collectCall] else []) ++
        [Event.summaryWrite s] ++
        (if inp.testExit ≠ 0 ∧ inp.keepOnFail then [] else [Event.downCall]))

/-- The capability set §4.3 of the spec names, written from the spec's
words (for comparison with what the backends actually define). -/
def specCapabilitySet : List String :=
  ["up", "down", "status", "logs", "collect_artifacts"]

/-- The public methods class `AnsibleRunner` defines
(`ansible_runner.py`), by name. -/
def ansibleOps : List String :=
  ["run_playbook", "up", "down", "collect_artifacts", "status"]

/-- The public methods class `DockerRunner` defines
(`docker_runner.py`), by name. -/
def dockerOps : List String :=
  ["up", "down", "ps", "logs", "wait_for_health", "collect_artifacts"]

/-- A network where every probe succeeds with the expected outcome. -/
def netAllOk : Net :=
  ⟨fun _ c => Except.ok c.expected_status, fun _ _ => Except.ok 0⟩

/-- A network where every probe fails with a transport error. -/
def netDown : Net :=
  ⟨fun _ _ => Except.error TransportError.timeout,
   fun _ _ => Except.error TransportError.refused⟩

/-- A network whose TCP endpoints refuse connections (`connect_ex` result
111) before time 12 and accept (result 0) from time 12 on; HTTP probes
always error. -/
def net12 : Net :=
  ⟨fun _ _ => Except.error TransportError.refused,
   fun t _ => if 12 ≤ t then Except.ok 0 else Except.ok 111⟩

/-- A concrete HTTP health-check record. -/
def httpCheck : CheckRecord :=
  ⟨"http", "http://localhost:8000/health", 200, "", 0⟩

/-- A concrete TCP health-check record. -/
def tcpCheck : CheckRecord := ⟨"tcp", "", 200, "localhost", 5432⟩

/-- A health-check record whose `type` key is neither `"http"` nor
`"tcp"`. -/
def cmdCheck : CheckRecord := ⟨"command", "", 200, "", 0⟩

/-- A junit suite with 5 tests, 1 failure, 0 errors. -/
def suite510 : JUnitSuite :=
  ⟨5, 1, 0,
   [⟨"tests.test_crud", "test_create_item", none, none⟩,
    ⟨"tests.test_crud", "test_get_item", some "assert 404 == 200", none⟩,
    ⟨"tests.test_crud", "test_update_item", none, none⟩,
    ⟨"tests.test_crud", "test_delete_item", none, none⟩,
    ⟨"tests.test_health", "test_health_endpoint", none, none⟩]⟩

/-- Workflow inputs: environment bring-up fails, retention flag unset. -/
def inpEnvFail : RunInputs := ⟨1, 0, 0, false, "on_fail", 0, 0, none⟩

/-- Workflow inputs: environment bring-up fails, retention flag SET. -/
def inpEnvFailKeep : RunInputs := ⟨1, 0, 0, true, "on_fail", 0, 0, none⟩

/-- Workflow inputs: environment ready, tests fail, retention flag set. -/
def inpTestFailKeep : RunInputs := ⟨0, 1, 0, true, "on_fail", 3, 7, some suite510⟩

/-- Workflow inputs: environment ready, tests pass, policy `on_fail`. -/
def inpAllPass : RunInputs := ⟨0, 0, 0, false, "on_fail", 3, 7, some ⟨5, 0, 0, []⟩⟩

/-- A round verdict is `true` exactly when every check of the list passes
(unrecognized records impose no condition). -/
theorem runRound_true_iff (net : Net) (t : Nat) :
    ∀ checks : List CheckRecord,
      ((runRound net t checks).1 = true ↔
        ∀ c ∈ checks, checkPasses net t c = true) := by
  intro checks
  induction checks with
  | nil => simp [runRound]
  | cons c rest ih =>
    by_cases h1 : c.ctype = "http"
    · cases hc : check_http c (net.http t c) with
      | false => simp [runRound, h1, hc, checkPasses]
      | true => simp [runRound, h1, hc, checkPasses, ih]
    · by_cases h2 : c.ctype = "tcp"
      · cases hc : check_tcp (net.tcp t c) with
        | false => simp [runRound, h1, h2, hc, checkPasses]
        | true => simp [runRound, h1, h2, hc, checkPasses, ih]
      · simp [runRound, h1, h2, checkPasses, ih]

/-- Unfolding of one step of the round loop. -/
theorem runRound_cons (net : Net) (t : Nat) (c : CheckRecord)
    (rest : List CheckRecord) :
    runRound net t (c :: rest) =
      if c.ctype = "http" then
        if check_http c (net.http t c) then
          ((runRound net t rest).1, c :: (runRound net t rest).2)
        else (false, [c])
      else if c.ctype = "tcp" then
        if check_tcp (net.tcp t c) then
          ((runRound net t rest).1, c :: (runRound net t rest).2)
        else (false, [c])
      else runRound net t rest := rfl

/-- The probed records of a round form a sublist of the check list: checks
are probed in list order, none twice. -/
theorem runRound_probed_sublist (net : Net) (t : Nat) :
    ∀ checks : List CheckRecord, ((runRound net t checks).2).Sublist checks := by
  intro checks
  induction checks with
  | nil => simp [runRound]
  | cons c rest ih =>
    rw [runRound_cons]
    by_cases h1 : c.ctype = "http"
    · rw [if_pos h1]
      by_cases hc : check_http c (net.http t c) = true
      · rw [if_pos hc]; exact ih.cons₂ c
      · rw [if_neg hc]; exact (List.nil_sublist rest).cons₂ c
    · rw [if_neg h1]
      by_cases h2 : c.ctype = "tcp"
      · rw [if_pos h2]
        by_cases hc : check_tcp (net.tcp t c) = true
        · rw [if_pos hc]; exact ih.cons₂ c
        · rw [if_neg hc]; exact (List.nil_sublist rest).cons₂ c
      · rw [if_neg h2]
        exact ih.cons c

/-- Every record a round actually probes is a recognized (`"http"` or
`"tcp"`) record. -/
theorem runRound_probed_recognized (net : Net) (t : Nat) :
    ∀ (checks : List CheckRecord) (c : CheckRecord),
      c ∈ (runRound net t checks).2 → recognized c = true := by
  intro checks
  induction checks with
  | nil => simp [runRound]
  | cons c rest ih =>
    intro c' hc'
    rw [runRound_cons] at hc'
    by_cases h1 : c.ctype = "http"
    · rw [if_pos h1] at hc'
      by_cases hc : check_http c (net.http t c) = true
      · rw [if_pos hc] at hc'
        rcases List.mem_cons.mp hc' with rfl | hmem
        · simp [recognized, h1]
        · exact ih c' hmem
      · rw [if_neg hc] at hc'
        rcases List.mem_singleton.mp hc' with rfl
        simp [recognized, h1]
    · rw [if_neg h1] at hc'
      by_cases h2 : c.ctype = "tcp"
      · rw [if_pos h2] at hc'
        by_cases hc : check_tcp (net.tcp t c) = true
        · rw [if_pos hc] at hc'
          rcases List.mem_cons.mp hc' with rfl | hmem
          · simp [recognized, h2]
          · exact ih c' hmem
        · rw [if_neg hc] at hc'
          rcases List.mem_singleton.mp hc' with rfl
          simp [recognized, h2]
      · rw [if_neg h2] at hc'
        exact ih c' hc'

/-- Short-circuit decomposition of a failed round: the list splits at a
first failing recognized check; every check before it passes, and the
probed records are exactly the recognized ones before it plus the failing
one — nothing after the failing check is probed. -/
theorem runRound_false_decomp (net : Net) (t : Nat) :
    ∀ checks : List CheckRecord, (runRound net t checks).1 = false →
      ∃ l₁ c l₂, checks = l₁ ++ c :: l₂ ∧ recognized c = true ∧
        checkPasses net t c = false ∧
        (∀ c' ∈ l₁, checkPasses net t c' = true) ∧
        (runRound net t checks).2 = l₁.filter recognized ++ [c] := by
  intro checks
  induction checks with
  | nil => simp [runRound]
  | cons c rest ih =>
    intro hfalse
    rw [runRound_cons] at hfalse
    by_cases h1 : c.ctype = "http"
    · rw [if_pos h1] at hfalse
      by_cases hc : check_http c (net.http t c) = true
      · rw [if_pos hc] at hfalse
        obtain ⟨l₁, c₀, l₂, hsplit, hrec, hfailc, hpass, hprobe⟩ := ih hfalse
        have hrec1 : recognized c = true := by simp [recognized, h1]
        refine ⟨c :: l₁, c₀, l₂, by simp [hsplit], hrec, hfailc, ?_, ?_⟩
        · intro c' hm
          rcases List.mem_cons.mp hm with rfl | hm
          · simp [checkPasses, h1, hc]
          · exact hpass c' hm
        · rw [runRound_cons, if_pos h1, if_pos hc]
          simp only [List.filter_cons, hrec1, if_true, List.cons_append]
          exact congrArg (c :: ·) hprobe
      · refine ⟨[], c, rest, by simp, by simp [recognized, h1], ?_, by simp, ?_⟩
        · simp only [checkPasses]
          rw [if_pos h1]
          exact Bool.eq_false_iff.mpr hc
        · rw [runRound_cons, if_pos h1, if_neg hc]
          simp
    · rw [if_neg h1] at hfalse
      by_cases h2 : c.ctype = "tcp"
      · rw [if_pos h2] at hfalse
        by_cases hc : check_tcp (net.tcp t c) = true
        · rw [if_pos hc] at hfalse
          obtain ⟨l₁, c₀, l₂, hsplit, hrec, hfailc, hpass, hprobe⟩ := ih hfalse
          have hrec1 : recognized c = true := by simp [recognized, h2]
          refine ⟨c :: l₁, c₀, l₂, by simp [hsplit], hrec, hfailc, ?_, ?_⟩
          · intro c' hm
            rcases List.mem_cons.mp hm with rfl | hm
            · simp [checkPasses, h1, h2, hc]
            · exact hpass c' hm
          · rw [runRound_cons, if_neg h1, if_pos h2, if_pos hc]
            simp only [List.filter_cons, hrec1, if_true, List.cons_append]
            exact congrArg (c :: ·) hprobe
        · refine ⟨[], c, rest, by simp, by simp [recognized, h2], ?_, by simp, ?_⟩
          · simp only [checkPasses]
            rw [if_neg h1, if_pos h2]
            exact Bool.eq_false_iff.mpr hc
          · rw [runRound_cons, if_neg h1, if_pos h2, if_neg hc]
            simp
      · rw [if_neg h2] at hfalse
        obtain ⟨l₁, c₀, l₂, hsplit, hrec, hfailc, hpass, hprobe⟩ := ih hfalse
        have hrec0 : recognized c = false := by
          simp [recognized, h1, h2]
        refine ⟨c :: l₁, c₀, l₂, by simp [hsplit], hrec, hfailc, ?_, ?_⟩
        · intro c' hm
          rcases List.mem_cons.mp hm with rfl | hm
          · simp [checkPasses, h1, h2]
          · exact hpass c' hm
        · rw [runRound_cons, if_neg h1, if_neg h2]
          simp only [List.filter_cons, hrec0, Bool.false_eq_true, if_false]
          exact hprobe

/-- Unfolding of the loop at zero fuel. -/
theorem waitLoop_zero (net : Net) (checks : List CheckRecord)
    (tout ival t s : Nat) :
    waitLoop net checks tout ival 0 t s = ⟨false, s, t⟩ := rfl

/-- Unfolding of one iteration of the loop. -/
theorem waitLoop_succ (net : Net) (checks : List CheckRecord)
    (tout ival fuel t s : Nat) :
    waitLoop net checks tout ival (fuel + 1) t s =
      if t < tout then
        if (runRound net t checks).1 then ⟨true, s, t⟩
        else waitLoop net checks tout ival fuel (t + ival) (s + 1)
      else ⟨false, s, t⟩ := rfl

/-- Each sleep the loop performs advances elapsed time by exactly `ival`:
final elapsed time = initial time + (new sleeps) · `ival`. -/
theorem waitLoop_sleeps_elapsed (net : Net) (checks : List CheckRecord)
    (tout ival : Nat) :
    ∀ fuel t s, ∃ k,
      (waitLoop net checks tout ival fuel t s).sleeps = s + k ∧
      (waitLoop net checks tout ival fuel t s).elapsed = t + k * ival := by
  intro fuel
  induction fuel with
  | zero => intro t s; exact ⟨0, by simp [waitLoop_zero]⟩
  | succ fuel ih =>
    intro t s
    by_cases ht : t < tout
    · by_cases hr : (runRound net t checks).1 = true
      · refine ⟨0, ?_, ?_⟩ <;> rw [waitLoop_succ, if_pos ht, if_pos hr] <;> simp
      · obtain ⟨k, hk1, hk2⟩ := ih (t + ival) (s + 1)
        refine ⟨k + 1, ?_, ?_⟩
        · rw [waitLoop_succ, if_pos ht, if_neg hr, hk1]
          omega
        · rw [waitLoop_succ, if_pos ht, if_neg hr, hk2]
          ring
    · refine ⟨0, ?_, ?_⟩ <;> rw [waitLoop_succ, if_neg ht] <;> simp

/-- When no round ever passes, the loop (given fuel at least the remaining
time) returns `false` and stops at the first sleep boundary at or past the
deadline. -/
theorem waitLoop_never_pass (net : Net) (checks : List CheckRecord)
    (tout ival : Nat) (hI : 0 < ival)
    (hfail : ∀ u, (runRound net u checks).1 = false) :
    ∀ fuel t s, tout ≤ t + fuel →
      (waitLoop net checks tout ival fuel t s).ready = false ∧
      (tout ≤ t → (waitLoop net checks tout ival fuel t s).elapsed = t) ∧
      (t < tout → tout ≤ (waitLoop net checks tout ival fuel t s).elapsed ∧
        (waitLoop net checks tout ival fuel t s).elapsed < tout + ival) := by
  intro fuel
  induction fuel with
  | zero =>
    intro t s hle
    exact ⟨rfl, fun _ => rfl, fun hlt => absurd hlt (by omega)⟩
  | succ fuel ih =>
    intro t s hle
    by_cases ht : t < tout
    · have hr : ¬ (runRound net t checks).1 = true := by
        rw [hfail t]; simp
      rw [waitLoop_succ, if_pos ht, if_neg hr]
      have hle' : tout ≤ (t + ival) + fuel := by omega
      obtain ⟨h1, h2, h3⟩ := ih (t + ival) (s + 1) hle'
      refine ⟨h1, fun h => absurd ht (by omega), fun _ => ?_⟩
      by_cases h4 : tout ≤ t + ival
      · rw [h2 h4]
        omega
      · exact h3 (by omega)
    · rw [waitLoop_succ, if_neg ht]
      exact ⟨rfl, fun _ => rfl, fun hlt => absurd hlt ht⟩

/-- A list whose records are all of unrecognized type yields a passing
round that probes nothing. -/
theorem runRound_all_unrecognized (net : Net) (t : Nat) :
    ∀ checks : List CheckRecord,
      (∀ c ∈ checks, c.ctype ≠ "http" ∧ c.ctype ≠ "tcp") →
      runRound net t checks = (true, []) := by
  intro checks
  induction checks with
  | nil => intro _; rfl
  | cons c rest ih =>
    intro h
    obtain ⟨h1, h2⟩ := h c (List.mem_cons_self c rest)
    rw [runRound_cons, if_neg h1, if_neg h2]
    exact ih (fun c' hm => h c' (List.mem_cons_of_mem c hm))

/-- C3: for every list of health checks, `wait_for_health` evaluates the
checks of a round in list order (the probed records form a sublist of the
check list), short-circuits the round at the first failing check (a failed
round splits at a first failing recognized check and nothing after it is
probed), returns `true` immediately with no sleep when a round completes
with all checks passing (in particular zero sleeps and zero elapsed time
when the first round passes), and sleeps exactly `interval` after each
failed round before starting the next (each failed iteration advances to
`t + interval` with one more sleep, and elapsed time always equals
sleeps · interval). -/
theorem C3_round_order_shortcircuit_sleep (net : Net)
    (checks : List CheckRecord) (tout ival : Nat) (hT : 0 < tout) :
    ((runRound net 0 checks).1 = true →
      wait_for_health net checks tout ival = ⟨true, 0, 0⟩)
  ∧ (wait_for_health net checks tout ival).elapsed =
      (wait_for_health net checks tout ival).sleeps * ival
  ∧ (∀ t, ((runRound net t checks).2).Sublist checks)
  ∧ (∀ t, ((runRound net t checks).1 = true ↔
      ∀ c ∈ checks, checkPasses net t c = true))
  ∧ (∀ t, (runRound net t checks).1 = false →
      ∃ l₁ c l₂, checks = l₁ ++ c :: l₂ ∧ recognized c = true ∧
        checkPasses net t c = false ∧
        (∀ c' ∈ l₁, checkPasses net t c' = true) ∧
        (runRound net t checks).2 = l₁.filter recognized ++ [c])
  ∧ (∀ fuel t s, t < tout → (runRound net t checks).1 = false →
      waitLoop net checks tout ival (fuel + 1) t s =
        waitLoop net checks tout ival fuel (t + ival) (s + 1))
  ∧ (∀ fuel t s, t < tout → (runRound net t checks).1 = true →
      waitLoop net checks tout ival (fuel + 1) t s = ⟨true, s, t⟩) := by
  refine ⟨?_, ?_, fun t => runRound_probed_sublist net t checks,
    fun t => runRound_true_iff net t checks,
    fun t => runRound_false_decomp net t checks, ?_, ?_⟩
  · intro h
    simp only [wait_for_health]
    rw [waitLoop_succ, if_pos hT, if_pos h]
  · obtain ⟨k, hk1, hk2⟩ :=
      waitLoop_sleeps_elapsed net checks tout ival (tout + 1) 0 0
    simp only [wait_for_health]
    rw [hk1, hk2]
    simp
  · intro fuel t s ht hr
    rw [waitLoop_succ, if_pos ht, if_neg (by simp [hr])]
  · intro fuel t s ht hr
    rw [waitLoop_succ, if_pos ht, if_pos hr]

/-- Witness for C3 at a concrete input: both probes pass at time 0, so the
poller returns `true` with zero sleeps and zero elapsed time. -/
theorem C3_round_order_shortcircuit_sleep_witness :
    0 < 120 ∧
      wait_for_health netAllOk [httpCheck, tcpCheck] 120 5 = ⟨true, 0, 0⟩ :=
  ⟨by decide,
    (C3_round_order_shortcircuit_sleep netAllOk [httpCheck, tcpCheck] 120 5
      (by decide)).1 rfl⟩

/-- C4: for every timeout `T` and positive interval `I`, if no round ever
passes then `wait_for_health` terminates with `false` and elapsed time in
`[T, T + I)`; and in the concrete instance timeout 10, interval 5, with a
single TCP check failing until `t = 12` and passing from then on, the
poller returns `false` (after 2 sleeps, at elapsed time 10). -/
theorem C4_timeout_window (net : Net) (checks : List CheckRecord)
    (tout ival : Nat) (hI : 0 < ival)
    (hfail : ∀ u, (runRound net u checks).1 = false) :
    ((wait_for_health net checks tout ival).ready = false ∧
      tout ≤ (wait_for_health net checks tout ival).elapsed ∧
      (wait_for_health net checks tout ival).elapsed < tout + ival)
  ∧ wait_for_health net12 [tcpCheck] 10 5 = ⟨false, 2, 10⟩ := by
  constructor
  · obtain ⟨h1, h2, h3⟩ :=
      waitLoop_never_pass net checks tout ival hI hfail (tout + 1) 0 0
        (by omega)
    simp only [wait_for_health]
    refine ⟨h1, ?_, ?_⟩
    · by_cases h0 : 0 < tout
      · exact (h3 h0).1
      · rw [h2 (by omega)]
        omega
    · by_cases h0 : 0 < tout
      · exact (h3 h0).2
      · rw [h2 (by omega)]
        omega
  · rfl

/-- Witness for C4 at a concrete input: every probe errors out, so with
timeout 10 and interval 5 the poller returns `false` with elapsed time in
`[10, 15)`. -/
theorem C4_timeout_window_witness :
    (0 < 5 ∧ (∀ u, (runRound netDown u [httpCheck]).1 = false)) ∧
    ((wait_for_health netDown [httpCheck] 10 5).ready = false ∧
      10 ≤ (wait_for_health netDown [httpCheck] 10 5).elapsed ∧
      (wait_for_health netDown [httpCheck] 10 5).elapsed < 10 + 5) :=
  ⟨⟨by decide, fun _ => rfl⟩,
    (C4_timeout_window netDown [httpCheck] 10 5 (by decide) (fun _ => rfl)).1⟩

/-- C5: one evaluation of a health check is a total boolean function — the
embedding returns `Bool`, never an exception — and every transport error
(timeout, refusal, DNS failure) yields `false` rather than propagating;
on a received outcome the HTTP check passes iff the status equals the
expected one and the TCP check passes iff `connect_ex` returned 0. -/
theorem C5_evaluator_swallows_errors (c : CheckRecord) (e : TransportError) :
    check_http c (Except.error e) = false
  ∧ check_tcp (Except.error e) = false
  ∧ (∀ status : Nat,
      check_http c (Except.ok status) = (status == c.expected_status))
  ∧ (∀ code : Int, check_tcp (Except.ok code) = (code == 0)) :=
  ⟨rfl, rfl, fun _ => rfl, fun _ => rfl⟩

/-- C10: a health-check record whose type is neither `"http"` nor `"tcp"`
is never probed (every probed record is recognized), and a list of only
such records makes every round pass while probing nothing, so the poller
returns `true` in the first round with no sleep — for every network, even
one with no reachable service. -/
theorem C10_unrecognized_records_pass (net : Net)
    (checks : List CheckRecord) (tout ival : Nat) (hT : 0 < tout)
    (h : ∀ c ∈ checks, c.ctype ≠ "http" ∧ c.ctype ≠ "tcp") :
    (∀ t, runRound net t checks = (true, []))
  ∧ wait_for_health net checks tout ival = ⟨true, 0, 0⟩
  ∧ (∀ (cks : List CheckRecord) (t : Nat) (c : CheckRecord),
      c ∈ (runRound net t cks).2 → recognized c = true) := by
  refine ⟨fun t => runRound_all_unrecognized net t checks h, ?_,
    fun cks t c hm => runRound_probed_recognized net t cks c hm⟩
  simp only [wait_for_health]
  rw [waitLoop_succ, if_pos hT,
    if_pos (by rw [runRound_all_unrecognized net 0 checks h])]

/-- Witness for C10 at a concrete input: a single record of type
`"command"` on a network where every probe fails still yields immediate
readiness. -/
theorem C10_unrecognized_records_pass_witness :
    (0 < 120 ∧ (∀ c ∈ [cmdCheck], c.ctype ≠ "http" ∧ c.ctype ≠ "tcp")) ∧
    wait_for_health netDown [cmdCheck] 120 5 = ⟨true, 0, 0⟩ :=
  ⟨⟨by decide, by decide⟩,
    (C10_unrecognized_records_pass netDown [cmdCheck] 120 5 (by decide)
      (by decide)).2.1⟩

/-- Truncation to 200 characters never yields more than 200 characters. -/
theorem truncate200_length_le (s : String) : (truncate200 s).length ≤ 200 := by
  show (s.data.take 200).length ≤ 200
  exact List.length_take_le 200 s.data

/-- Inversion of the per-testcase entry builder: an emitted entry's name
joins the class name and the case name with a dot, and its reason is the
failure message (or, failing that, the error message) truncated to at most
200 characters. -/
theorem mkFailureEntry_spec (tc : TestCase) (e : FailureEntry) :
    mkFailureEntry tc = some e →
      e.name = tc.classname ++ "." ++ tc.name ∧
      (∃ m, (tc.failureMsg = some m ∨
          (tc.failureMsg = none ∧ tc.errorMsg = some m)) ∧
        e.reason = truncate200 m) ∧
      e.reason.length ≤ 200 := by
  obtain ⟨cn, nm, fm, em⟩ := tc
  cases fm with
  | some m =>
    intro h
    have h' : some (⟨cn ++ "." ++ nm, truncate200 m⟩ : FailureEntry) = some e := h
    obtain rfl := (Option.some.inj h').symm
    exact ⟨rfl, ⟨m, Or.inl rfl, rfl⟩, truncate200_length_le m⟩
  | none =>
    cases em with
    | some m =>
      intro h
      have h' : some (⟨cn ++ "." ++ nm, truncate200 m⟩ : FailureEntry) = some e := h
      obtain rfl := (Option.some.inj h').symm
      exact ⟨rfl, ⟨m, Or.inr ⟨rfl, rfl⟩, rfl⟩, truncate200_length_le m⟩
    | none =>
      intro h
      have h' : (none : Option FailureEntry) = some e := h
      exact Option.noConfusion h'

/-- C6: `parse_junit_xml` returns the zero summary on an absent file (not
an error); on a present file with `t` tests, `f` failures and `e` errors it
returns `failed = f + e` and `passed = t - f - e`; every entry of the
failures list comes from a failing/erroring testcase, with `name` the
class name joined to the case name and `reason` the message truncated to
at most 200 characters; and 5 total / 1 failure / 0 errors always yields
`passed = 4`, `failed = 1`. -/
theorem C6_parse_results (su : JUnitSuite) :
    parse_junit_xml none = ⟨0, 0, 0, []⟩
  ∧ (parse_junit_xml (some su)).total = su.tests
  ∧ (parse_junit_xml (some su)).failed = su.failures + su.errors
  ∧ (parse_junit_xml (some su)).passed =
      (su.tests : Int) - (su.failures : Int) - (su.errors : Int)
  ∧ (∀ ent ∈ (parse_junit_xml (some su)).failures,
      ∃ tc ∈ su.cases, mkFailureEntry tc = some ent ∧
        ent.name = tc.classname ++ "." ++ tc.name ∧
        (∃ m, (tc.failureMsg = some m ∨
            (tc.failureMsg = none ∧ tc.errorMsg = some m)) ∧
          ent.reason = truncate200 m) ∧
        ent.reason.length ≤ 200)
  ∧ (∀ su5 : JUnitSuite, su5.tests = 5 → su5.failures = 1 → su5.errors = 0 →
      (parse_junit_xml (some su5)).passed = 4 ∧
      (parse_junit_xml (some su5)).failed = 1) := by
  refine ⟨rfl, rfl, rfl, rfl, ?_, ?_⟩
  · intro ent he
    have he' : ent ∈ su.cases.filterMap mkFailureEntry := he
    obtain ⟨tc, htc, hmk⟩ := List.mem_filterMap.mp he'
    obtain ⟨h1, h2, h3⟩ := mkFailureEntry_spec tc ent hmk
    exact ⟨tc, htc, hmk, h1, h2, h3⟩
  · intro su5 h5 h1 h0
    simp [parse_junit_xml, h5, h1, h0]

/-- Witness for C6 at a concrete input: a suite with 5 tests and 1 failing
case yields the expected failure entry, tied to its originating testcase. -/
theorem C6_parse_results_witness :
    ((⟨"tests.test_crud.test_get_item", "assert 404 == 200"⟩ : FailureEntry)
        ∈ (parse_junit_xml (some suite510)).failures)
  ∧ (∃ tc ∈ suite510.cases,
      mkFailureEntry tc =
        some ⟨"tests.test_crud.test_get_item", "assert 404 == 200"⟩ ∧
      (⟨"tests.test_crud.test_get_item",
        "assert 404 == 200"⟩ : FailureEntry).name =
          tc.classname ++ "." ++ tc.name ∧
      (∃ m, (tc.failureMsg = some m ∨
          (tc.failureMsg = none ∧ tc.errorMsg = some m)) ∧
        (⟨"tests.test_crud.test_get_item",
          "assert 404 == 200"⟩ : FailureEntry).reason = truncate200 m) ∧
      (⟨"tests.test_crud.test_get_item",
        "assert 404 == 200"⟩ : FailureEntry).reason.length ≤ 200) :=
  ⟨by decide,
    (C6_parse_results suite510).2.2.2.2.1
      ⟨"tests.test_crud.test_get_item", "assert 404 == 200"⟩ (by decide)⟩

/-- The environment-failure path of `run`: exit code 2; collect, write
summary (environment never marked ready, junit absent), then tear down
only when the retention flag is unset. -/
theorem run_up_failed (inp : RunInputs) (h : inp.upExit ≠ 0) :
    run inp = (2,
      [Event.upCall, Event.collectCall,
        Event.summaryWrite
          (generate_summary 2 false inp.envDur inp.testDur none)] ++
        (if inp.keepOnFail then [] else [Event.downCall])) := by
  simp only [run]
  rw [if_pos h]

/-- The test-failure path of `run`: exit code 1; artifacts always
collected; summary written; teardown iff the retention flag is unset. -/
theorem run_test_failed (inp : RunInputs) (h0 : inp.upExit = 0)
    (h1 : inp.testExit ≠ 0) :
    run inp = (1,
      [Event.upCall, Event.testCall, Event.collectCall,
        Event.summaryWrite
          (generate_summary 1 true inp.envDur inp.testDur inp.junit)] ++
        (if inp.keepOnFail then [] else [Event.downCall])) := by
  simp only [run]
  rw [if_neg (by simp [h0])]
  simp [h1]

/-- The all-green path of `run`: exit code 0; artifacts collected only
under the `"always"` policy; summary written; teardown always runs. -/
theorem run_test_passed (inp : RunInputs) (h0 : inp.upExit = 0)
    (h1 : inp.testExit = 0) :
    run inp = (0,
      [Event.upCall, Event.testCall] ++
        (if inp.collectMode = "always" then [Event.collectCall] else []) ++
        [Event.summaryWrite
          (generate_summary 0 true inp.envDur inp.testDur inp.junit),
         Event.downCall]) := by
  simp only [run]
  rw [if_neg (by simp [h0])]
  simp [h1]

/-- C1 counterexample: with the retention flag set, an environment-startup
failure does NOT invoke `down` — teardown IS skippable on environment
failure, contrary to the claim that it runs for every setting of the
retention flag. -/
theorem C1_counterexample :
    (run inpEnvFailKeep).1 = 2 ∧
    Event.downCall ∉ (run inpEnvFailKeep).2 := by decide

/-- C1 (amended): if environment bring-up returns nonzero, the workflow
sets exit code 2, invokes collect_artifacts, invokes `down` iff the
retention flag is unset (the code honors `--keep-on-fail` here too), and
writes a summary whose `environment_bring_up_time_seconds` is null and
whose `total_tests` is 0, terminating with exit code 2. -/
theorem C1_env_failure_path (inp : RunInputs) (h : inp.upExit ≠ 0) :
    (run inp).1 = 2
  ∧ Event.collectCall ∈ (run inp).2
  ∧ (Event.downCall ∈ (run inp).2 ↔ inp.keepOnFail = false)
  ∧ Event.summaryWrite
      (generate_summary 2 false inp.envDur inp.testDur none) ∈ (run inp).2
  ∧ (generate_summary 2 false inp.envDur inp.testDur none).env_time = none
  ∧ (generate_summary 2 false inp.envDur inp.testDur none).total_tests = 0
  ∧ (generate_summary 2 false inp.envDur inp.testDur none).exit_code = 2 := by
  rw [run_up_failed inp h]
  by_cases hk : inp.keepOnFail <;>
    simp [hk, generate_summary, parse_junit_xml]

/-- Witness for C1 (amended) at a concrete input: `up` returns 1 with the
retention flag unset. -/
theorem C1_env_failure_path_witness :
    inpEnvFail.upExit ≠ 0 ∧ (run inpEnvFail).1 = 2 :=
  ⟨by decide, (C1_env_failure_path inpEnvFail (by decide)).1⟩

/-- C7 counterexample: the test-failure state is not the only state where
teardown is conditionally omitted — in the environment-failure state (the
tests never ran) teardown is likewise omitted exactly when the retention
flag is set. -/
theorem C7_counterexample :
    inpEnvFailKeep.testExit = 0 ∧
    Event.downCall ∉ (run inpEnvFailKeep).2 ∧
    Event.downCall ∈ (run inpEnvFail).2 := by decide

/-- C7 (amended): when the environment became ready and the test phase
returns nonzero, the workflow sets exit code 1 and skips teardown iff the
retention flag is set, while still collecting artifacts and writing the
summary; teardown omission is, however, not exclusive to this state — over
all inputs, `down` is skipped iff the retention flag is set and either
phase (bring-up or tests) failed. -/
theorem C7_test_failure_retention (inp : RunInputs)
    (h0 : inp.upExit = 0) (h1 : inp.testExit ≠ 0) :
    (run inp).1 = 1
  ∧ (Event.downCall ∉ (run inp).2 ↔ inp.keepOnFail = true)
  ∧ Event.collectCall ∈ (run inp).2
  ∧ Event.summaryWrite
      (generate_summary 1 true inp.envDur inp.testDur inp.junit) ∈ (run inp).2
  ∧ (∀ inp' : RunInputs, Event.downCall ∉ (run inp').2 ↔
      (inp'.keepOnFail = true ∧ (inp'.upExit ≠ 0 ∨ inp'.testExit ≠ 0))) := by
  refine ⟨?_, ?_, ?_, ?_, ?_⟩
  · rw [run_test_failed inp h0 h1]
  · rw [run_test_failed inp h0 h1]
    by_cases hk : inp.keepOnFail <;> simp [hk]
  · rw [run_test_failed inp h0 h1]
    simp
  · rw [run_test_failed inp h0 h1]
    simp
  · intro inp'
    by_cases g0 : inp'.upExit ≠ 0
    · rw [run_up_failed inp' g0]
      by_cases gk : inp'.keepOnFail <;> simp [gk, g0]
    · have g0' : inp'.upExit = 0 := not_not.mp g0
      by_cases g1 : inp'.testExit ≠ 0
      · rw [run_test_failed inp' g0' g1]
        by_cases gk : inp'.keepOnFail <;> simp [gk, g0', g1]
      · have g1' : inp'.testExit = 0 := not_not.mp g1
        rw [run_test_passed inp' g0' g1']
        simp [g0', g1']

/-- Witness for C7 (amended) at a concrete input: environment ready, tests
fail, retention flag set. -/
theorem C7_test_failure_retention_witness :
    (inpTestFailKeep.upExit = 0 ∧ inpTestFailKeep.testExit ≠ 0) ∧
    (run inpTestFailKeep).1 = 1 :=
  ⟨⟨by decide, by decide⟩,
    (C7_test_failure_retention inpTestFailKeep (by decide) (by decide)).1⟩

/-- C8: after the test phase, artifact collection runs iff the final exit
code is nonzero or the policy is `"always"`; in particular when the
environment is ready, tests pass and the policy is `on_fail`, collection
is skipped, teardown runs, and the exit code is 0. -/
theorem C8_collect_policy (inp : RunInputs) (h0 : inp.upExit = 0) :
    (Event.collectCall ∈ (run inp).2 ↔
      ((run inp).1 ≠ 0 ∨ inp.collectMode = "always"))
  ∧ (inp.testExit = 0 → inp.collectMode = "on_fail" →
      (Event.collectCall ∉ (run inp).2 ∧ Event.downCall ∈ (run inp).2 ∧
        (run inp).1 = 0)) := by
  by_cases g1 : inp.testExit ≠ 0
  · constructor
    · rw [run_test_failed inp h0 g1]
      simp
    · intro h1'
      exact absurd h1' g1
  · have g1' : inp.testExit = 0 := not_not.mp g1
    rw [run_test_passed inp h0 g1']
    by_cases gm : inp.collectMode = "always"
    · constructor
      · simp [gm]
      · intro _ hmode
        exact absurd (gm.symm.trans hmode) (by decide)
    · constructor
      · simp [gm]
      · intro _ _
        simp [gm]

/-- Witness for C8 at a concrete input: environment ready, tests pass,
policy `on_fail`. -/
theorem C8_collect_policy_witness :
    (inpAllPass.upExit = 0 ∧ inpAllPass.testExit = 0 ∧
      inpAllPass.collectMode = "on_fail") ∧
    (Event.collectCall ∉ (run inpAllPass).2 ∧
      Event.downCall ∈ (run inpAllPass).2 ∧ (run inpAllPass).1 = 0) :=
  ⟨⟨by decide, by decide, by decide⟩,
    (C8_collect_policy inpAllPass (by decide)).2 (by decide) (by decide)⟩

/-- C9: on every execution path of `run`, the summary is written exactly
once — the trace splits around a single `summaryWrite` — after any
artifact collection (none occurs later) and before any teardown (none
occurs earlier); the written summary carries the already-decided exit
code; and the value `down` returns never affects the result: the whole
observable behaviour of `run` is independent of `downExit`. -/
theorem C9_summary_once_ordered (inp : RunInputs) :
    (∃ l₁ s l₂, (run inp).2 = l₁ ++ Event.summaryWrite s :: l₂ ∧
      s.exit_code = (run inp).1 ∧
      (∀ e ∈ l₁, (∀ s', e ≠ Event.summaryWrite s') ∧ e ≠ Event.downCall) ∧
      (∀ e ∈ l₂, (∀ s', e ≠ Event.summaryWrite s') ∧ e ≠ Event.collectCall))
  ∧ (∀ d : Int, run { inp with downExit := d } = run inp) := by
  constructor
  · by_cases g0 : inp.upExit ≠ 0
    · rw [run_up_failed inp g0]
      by_cases gk : inp.keepOnFail
      · refine ⟨[Event.upCall, Event.collectCall],
          generate_summary 2 false inp.envDur inp.testDur none, [],
          by simp [gk], by simp [generate_summary], ?_, ?_⟩
        · intro e he
          fin_cases he <;> simp
        · intro e he
          exact absurd he (List.not_mem_nil e)
      · refine ⟨[Event.upCall, Event.collectCall],
          generate_summary 2 false inp.envDur inp.testDur none,
          [Event.downCall],
          by simp [gk], by simp [generate_summary], ?_, ?_⟩
        · intro e he
          fin_cases he <;> simp
        · intro e he
          fin_cases he
          simp
    · have g0' : inp.upExit = 0 := not_not.mp g0
      by_cases g1 : inp.testExit ≠ 0
      · rw [run_test_failed inp g0' g1]
        by_cases gk : inp.keepOnFail
        · refine ⟨[Event.upCall, Event.testCall, Event.collectCall],
            generate_summary 1 true inp.envDur inp.testDur inp.junit, [],
            by simp [gk], by simp [generate_summary], ?_, ?_⟩
          · intro e he
            fin_cases he <;> simp
          · intro e he
            exact absurd he (List.not_mem_nil e)
        · refine ⟨[Event.upCall, Event.testCall, Event.collectCall],
            generate_summary 1 true inp.envDur inp.testDur inp.junit,
            [Event.downCall],
            by simp [gk], by simp [generate_summary], ?_, ?_⟩
          · intro e he
            fin_cases he <;> simp
          · intro e he
            fin_cases he
            simp
      · have g1' : inp.testExit = 0 := not_not.mp g1
        rw [run_test_passed inp g0' g1']
        by_cases gm : inp.collectMode = "always"
        · refine ⟨[Event.upCall, Event.testCall, Event.collectCall],
            generate_summary 0 true inp.envDur inp.testDur inp.junit,
            [Event.downCall],
            by simp [gm], by simp [generate_summary], ?_, ?_⟩
          · intro e he
            fin_cases he <;> simp
          · intro e he
            fin_cases he
            simp
        · refine ⟨[Event.upCall, Event.testCall],
            generate_summary 0 true inp.envDur inp.testDur inp.junit,
            [Event.downCall],
            by simp [gm], by simp [generate_summary], ?_, ?_⟩
          · intro e he
            fin_cases he <;> simp
          · intro e he
            fin_cases he
            simp
  · intro d
    cases inp
    rfl

/-- Witness for C9 at a concrete input: the trace of a passing run splits
around its single summary write. -/
theorem C9_summary_once_ordered_witness :
    ∃ l₁ s l₂, (run inpAllPass).2 = l₁ ++ Event.summaryWrite s :: l₂ ∧
      s.exit_code = (run inpAllPass).1 ∧
      (∀ e ∈ l₁, (∀ s', e ≠ Event.summaryWrite s') ∧ e ≠ Event.downCall) ∧
      (∀ e ∈ l₂, (∀ s', e ≠ Event.summaryWrite s') ∧ e ≠ Event.collectCall) :=
  (C9_summary_once_ordered inpAllPass).1

/-- C2 counterexample: the spec's capability set is not provided by both
backends — `AnsibleRunner` defines no `logs` operation and `DockerRunner`
defines no `status` operation (it has `ps` instead). -/
theorem C2_counterexample :
    ¬ (∀ op ∈ specCapabilitySet, op ∈ ansibleOps ∧ op ∈ dockerOps) := by
  decide

/-- C2 (amended): the two backends agree only on the capability subset
`{up, down, collect_artifacts}`; of the spec's set, `status` is provided
by the templated-automation backend but not the direct-command one, and
`logs` by the direct-command backend but not the templated-automation
one — so only callers restricted to the common subset are
backend-agnostic. -/
theorem C2_backend_capability_overlap :
    (∀ op ∈ (["up", "down", "collect_artifacts"] : List String),
      op ∈ ansibleOps ∧ op ∈ dockerOps)
  ∧ "logs" ∈ specCapabilitySet ∧ "logs" ∉ ansibleOps ∧ "logs" ∈ dockerOps
  ∧ "status" ∈ specCapabilitySet ∧ "status" ∈ ansibleOps ∧
    "status" ∉ dockerOps := by
  decide
